import Mathlib

/-
Verification of the builtin audio encoder factory assembly
(src/api/audio_codecs/builtin_audio_encoder_factory.cc) against its
natural-language specification.

The source file contributes two things: the advertisement-suppressing
decorator NotAdvertised<T> and the fixed, feature-flag-gated descriptor
list passed to CreateAudioEncoderFactory<...>().  The factory template
itself (api/audio_codecs/audio_encoder_factory_template.h) is declared
and instantiated here but its body is not part of this repository slice,
so the dispatch engine is modelled from the specification's description
(first-match-wins linear scan, in-order concatenation of supported
specs, stateless calls).
-/

namespace WebRTC

/-- SdpAudioFormat: the negotiated format record (name, clock rate,
channel count, fmtp-style parameters), as described in the data model. -/
structure SdpAudioFormat where
  name : String
  clockrateHz : Nat
  numChannels : Nat
  parameters : List (String × String)
deriving DecidableEq

/-- AudioCodecInfo: static capability information derived from a parsed
codec configuration. -/
structure AudioCodecInfo where
  sampleRateHz : Nat
  numChannels : Nat
  defaultBitrateBps : Nat
deriving DecidableEq

/-- AudioCodecSpec: an advertisable (format template, capability) pair,
produced only by a descriptor's AppendSupportedEncoders. -/
structure AudioCodecSpec where
  format : SdpAudioFormat
  info : AudioCodecInfo
deriving DecidableEq

/-- A stand-in for a constructed AudioEncoder instance; the factory only
ever hands these back opaquely, so the model records the payload type the
encoder was bound to and a codec-chosen tag. -/
structure AudioEncoder where
  payloadType : Int
  codecTag : Nat
deriving DecidableEq

/-- CodecClass: the four-operation capability contract every codec
descriptor satisfies (the template parameter T of the C++ factory
template).  Config is the codec-specific parsed-settings type
(typename T::Config); SdpToConfig returns none on rejection;
AppendSupportedEncoders acts on the shared accumulating vector of specs
(modelled as a list transformer); QueryAudioEncoder is total on configs;
MakeAudioEncoder may fail (null unique_ptr), modelled with Option. -/
structure CodecClass where
  Config : Type
  sdpToConfig : SdpAudioFormat → Option Config
  appendSupportedEncoders : List AudioCodecSpec → List AudioCodecSpec
  queryAudioEncoder : Config → AudioCodecInfo
  makeAudioEncoder : Config → Int → Option AudioEncoder

/-- NotAdvertised, from the source: wraps a descriptor T; using Config =
typename T::Config; SdpToConfig, QueryAudioEncoder and MakeAudioEncoder
delegate to T unchanged; AppendSupportedEncoders has an empty body, so
it leaves the passed vector exactly as it was. -/
def NotAdvertised (T : CodecClass) : CodecClass where
  Config := T.Config
  sdpToConfig := T.sdpToConfig
  appendSupportedEncoders := fun specs => specs
  queryAudioEncoder := T.queryAudioEncoder
  makeAudioEncoder := T.makeAudioEncoder

/-- Modelled from the spec: the factory template's GetSupportedFormats
(audio_encoder_factory_template.h is not under src/).  The factory
invokes each descriptor's AppendSupportedEncoders on the shared spec
vector in list order, starting from the empty vector. -/
def supportedFormats (ds : List CodecClass) : List AudioCodecSpec :=
  ds.foldl (fun acc d => d.appendSupportedEncoders acc) []

/-- The specs one descriptor contributes on its own: its
AppendSupportedEncoders applied to an empty vector. -/
def listSupportedSpecs (d : CodecClass) : List AudioCodecSpec :=
  d.appendSupportedEncoders []

/-- A descriptor honours the append contract: running its
AppendSupportedEncoders on any accumulated vector only appends its own
contribution at the end. -/
def Appends (d : CodecClass) : Prop :=
  ∀ acc : List AudioCodecSpec,
    d.appendSupportedEncoders acc = acc ++ listSupportedSpecs d

/-- Modelled from the spec: the factory template's QueryAudioEncoder
(audio_encoder_factory_template.h is not under src/).  Linear scan in
descriptor-list order; the first descriptor whose SdpToConfig succeeds
supplies the answer via its QueryAudioEncoder; none if all reject. -/
def queryInfo : List CodecClass → SdpAudioFormat → Option AudioCodecInfo
  | [], _ => none
  | d :: ds, f =>
    match d.sdpToConfig f with
    | some cfg => some (d.queryAudioEncoder cfg)
    | none => queryInfo ds f

/-- Modelled from the spec: the factory template's MakeAudioEncoder
(audio_encoder_factory_template.h is not under src/).  Same first-match
selection as queryInfo; the selected descriptor's MakeAudioEncoder is
invoked with the parsed config and payload type, and its result (which
may itself be none) is returned without trying later descriptors. -/
def createEncoder : List CodecClass → SdpAudioFormat → Int → Option AudioEncoder
  | [], _, _ => none
  | d :: ds, f, p =>
    match d.sdpToConfig f with
    | some cfg => d.makeAudioEncoder cfg p
    | none => createEncoder ds f p

/-- Index (0-based position in the descriptor list) of the codec the
dispatch scan selects for a format, if any: identifies which codec a
call resolved to. -/
def dispatchIndex : List CodecClass → SdpAudioFormat → Option Nat
  | [], _ => none
  | d :: ds, f =>
    match d.sdpToConfig f with
    | some _ => some 0
    | none => (dispatchIndex ds f).map (fun n => n + 1)

/-- Modelled from the spec: the composed factory's only state is its
immutable descriptor list, fixed at construction. -/
structure FactoryState where
  descriptors : List CodecClass

/-- Modelled from the spec: a QueryAudioEncoder call on the factory,
written state-passing so the claim that calls neither read hidden
per-call state nor write any can be stated: the call returns a result
and the (unchanged) factory state. -/
def queryInfoCall (s : FactoryState) (f : SdpAudioFormat) :
    Option AudioCodecInfo × FactoryState :=
  (queryInfo s.descriptors f, s)

/-- Modelled from the spec: a MakeAudioEncoder call on the factory,
state-passing as for queryInfoCall. -/
def createEncoderCall (s : FactoryState) (f : SdpAudioFormat) (p : Int) :
    Option AudioEncoder × FactoryState :=
  (createEncoder s.descriptors f p, s)

/-- The builtin assembly, from CreateBuiltinAudioEncoderFactory in the
source: the ordered template-argument list, with each optional codec
present exactly when its build flag is set, and AudioEncoderG711 and
NotAdvertised<AudioEncoderL16> closing the list unconditionally.  The
six codec descriptors are opaque collaborators (their files are not in
this slice), so they are parameters. -/
def builtinList (useOpus useIsac useG722 useIlbc : Bool)
    (opusD isacD g722D ilbcD g711D l16D : CodecClass) : List CodecClass :=
  (if useOpus then [opusD] else []) ++
  (if useIsac then [isacD] else []) ++
  (if useG722 then [g722D] else []) ++
  (if useIlbc then [ilbcD] else []) ++
  [g711D, NotAdvertised l16D]

/-- A concrete demo descriptor accepting formats named "demo", used to
instantiate the universally quantified theorems on concrete inputs. -/
@[reducible] def demoA : CodecClass where
  Config := Nat
  sdpToConfig := fun f => if f.name = "demo" then some f.clockrateHz else none
  appendSupportedEncoders := fun acc =>
    acc ++ [⟨⟨"demo", 48000, 2, []⟩, ⟨48000, 2, 64000⟩⟩]
  queryAudioEncoder := fun c => ⟨c, 1, 64000⟩
  makeAudioEncoder := fun c p => some ⟨p, c⟩

/-- A second demo descriptor that also accepts "demo" but parses and
reports different capabilities, to exhibit order-dependent dispatch. -/
@[reducible] def demoB : CodecClass where
  Config := Nat
  sdpToConfig := fun f => if f.name = "demo" then some (f.clockrateHz * 2) else none
  appendSupportedEncoders := fun acc =>
    acc ++ [⟨⟨"demo", 16000, 1, []⟩, ⟨16000, 1, 32000⟩⟩]
  queryAudioEncoder := fun c => ⟨c, 2, 32000⟩
  makeAudioEncoder := fun c p => some ⟨p, c + 1⟩

/-- A demo descriptor that rejects every format. -/
@[reducible] def demoReject : CodecClass where
  Config := Unit
  sdpToConfig := fun _ => none
  appendSupportedEncoders := fun acc => acc
  queryAudioEncoder := fun _ => ⟨0, 0, 0⟩
  makeAudioEncoder := fun _ _ => none

/-- A demo descriptor that accepts "demo" but whose MakeAudioEncoder
always fails, to exercise the construction-failure path. -/
@[reducible] def demoFragile : CodecClass where
  Config := Nat
  sdpToConfig := fun f => if f.name = "demo" then some f.clockrateHz else none
  appendSupportedEncoders := fun acc => acc
  queryAudioEncoder := fun c => ⟨c, 1, 1000⟩
  makeAudioEncoder := fun _ _ => none

/-- The concrete format the demo descriptors accept. -/
def demoFormat : SdpAudioFormat := ⟨"demo", 8000, 1, []⟩

/-- A format none of the demo descriptors accept. -/
def otherFormat : SdpAudioFormat := ⟨"other", 8000, 1, []⟩

/- Helper lemmas about the dispatch scan.  These are shared by the
claim theorems below; no claim theorem is used in another's proof. -/

theorem notAdvertised_sdpToConfig (T : CodecClass) :
    (NotAdvertised T).sdpToConfig = T.sdpToConfig := rfl

theorem notAdvertised_makeAudioEncoder (T : CodecClass) :
    (NotAdvertised T).makeAudioEncoder = T.makeAudioEncoder := rfl

theorem queryInfo_cons_accept (d : CodecClass) (ds : List CodecClass)
    (f : SdpAudioFormat) (cfg : d.Config) (h : d.sdpToConfig f = some cfg) :
    queryInfo (d :: ds) f = some (d.queryAudioEncoder cfg) := by
  simp [queryInfo, h]

theorem queryInfo_cons_reject (d : CodecClass) (ds : List CodecClass)
    (f : SdpAudioFormat) (h : d.sdpToConfig f = none) :
    queryInfo (d :: ds) f = queryInfo ds f := by
  simp [queryInfo, h]

theorem queryInfo_append_reject (ds1 ds2 : List CodecClass)
    (f : SdpAudioFormat) (h : ∀ d ∈ ds1, d.sdpToConfig f = none) :
    queryInfo (ds1 ++ ds2) f = queryInfo ds2 f := by
  induction ds1 with
  | nil => rfl
  | cons d ds ih =>
    rw [List.cons_append,
      queryInfo_cons_reject d (ds ++ ds2) f (h d (List.mem_cons_self d ds))]
    exact ih fun e he => h e (List.mem_cons_of_mem d he)

theorem queryInfo_none_iff (ds : List CodecClass) (f : SdpAudioFormat) :
    queryInfo ds f = none ↔ ∀ d ∈ ds, d.sdpToConfig f = none := by
  induction ds with
  | nil => simp [queryInfo]
  | cons d ds ih =>
    constructor
    · intro h e he
      rcases List.mem_cons.mp he with rfl | he
      · cases hd : e.sdpToConfig f with
        | none => rfl
        | some cfg => rw [queryInfo_cons_accept e ds f cfg hd] at h; cases h
      · cases hd : d.sdpToConfig f with
        | none =>
          rw [queryInfo_cons_reject d ds f hd] at h
          exact ih.mp h e he
        | some cfg => rw [queryInfo_cons_accept d ds f cfg hd] at h; cases h
    · intro h
      rw [queryInfo_cons_reject d ds f (h d (List.mem_cons_self d ds))]
      exact ih.mpr fun e he => h e (List.mem_cons_of_mem d he)

theorem queryInfo_first (ds1 : List CodecClass) (d : CodecClass)
    (ds2 : List CodecClass) (f : SdpAudioFormat) (cfg : d.Config)
    (h1 : ∀ e ∈ ds1, e.sdpToConfig f = none) (h2 : d.sdpToConfig f = some cfg) :
    queryInfo (ds1 ++ d :: ds2) f = some (d.queryAudioEncoder cfg) := by
  rw [queryInfo_append_reject ds1 (d :: ds2) f h1,
    queryInfo_cons_accept d ds2 f cfg h2]

theorem createEncoder_cons_accept (d : CodecClass) (ds : List CodecClass)
    (f : SdpAudioFormat) (p : Int) (cfg : d.Config)
    (h : d.sdpToConfig f = some cfg) :
    createEncoder (d :: ds) f p = d.makeAudioEncoder cfg p := by
  simp [createEncoder, h]

theorem createEncoder_cons_reject (d : CodecClass) (ds : List CodecClass)
    (f : SdpAudioFormat) (p : Int) (h : d.sdpToConfig f = none) :
    createEncoder (d :: ds) f p = createEncoder ds f p := by
  simp [createEncoder, h]

theorem createEncoder_append_reject (ds1 ds2 : List CodecClass)
    (f : SdpAudioFormat) (p : Int) (h : ∀ d ∈ ds1, d.sdpToConfig f = none) :
    createEncoder (ds1 ++ ds2) f p = createEncoder ds2 f p := by
  induction ds1 with
  | nil => rfl
  | cons d ds ih =>
    rw [List.cons_append,
      createEncoder_cons_reject d (ds ++ ds2) f p (h d (List.mem_cons_self d ds))]
    exact ih fun e he => h e (List.mem_cons_of_mem d he)

theorem createEncoder_none_of_all_reject (ds : List CodecClass)
    (f : SdpAudioFormat) (p : Int) (h : ∀ d ∈ ds, d.sdpToConfig f = none) :
    createEncoder ds f p = none := by
  have := createEncoder_append_reject ds [] f p h
  rw [List.append_nil] at this
  rw [this]
  rfl

theorem createEncoder_first (ds1 : List CodecClass) (d : CodecClass)
    (ds2 : List CodecClass) (f : SdpAudioFormat) (p : Int) (cfg : d.Config)
    (h1 : ∀ e ∈ ds1, e.sdpToConfig f = none) (h2 : d.sdpToConfig f = some cfg) :
    createEncoder (ds1 ++ d :: ds2) f p = d.makeAudioEncoder cfg p := by
  rw [createEncoder_append_reject ds1 (d :: ds2) f p h1,
    createEncoder_cons_accept d ds2 f p cfg h2]

theorem supportedFormats_foldl (ds : List CodecClass)
    (h : ∀ d ∈ ds, Appends d) (acc : List AudioCodecSpec) :
    ds.foldl (fun a d => d.appendSupportedEncoders a) acc =
      acc ++ (ds.map listSupportedSpecs).flatten := by
  induction ds generalizing acc with
  | nil => simp
  | cons d ds ih =>
    rw [List.foldl_cons, ih fun e he => h e (List.mem_cons_of_mem d he),
      h d (List.mem_cons_self d ds) acc]
    simp

theorem supportedFormats_eq_join (ds : List CodecClass)
    (h : ∀ d ∈ ds, Appends d) :
    supportedFormats ds = (ds.map listSupportedSpecs).flatten := by
  rw [supportedFormats, supportedFormats_foldl ds h []]
  rfl

/-- C1: for every format f and descriptor list, queryInfo returns the
query-info result of the first descriptor (in list order) whose
parse-format accepts f, applied to the parsed config; in particular, for
two descriptors d1 and d2 that both accept f with possibly different
capability results, queryInfo returns d1's result on the list [d1, d2]
and d2's result on the reversed list [d2, d1]. -/
theorem first_match_wins :
    (∀ (ds1 : List CodecClass) (d : CodecClass) (ds2 : List CodecClass)
        (f : SdpAudioFormat) (cfg : d.Config),
        (∀ e ∈ ds1, e.sdpToConfig f = none) → d.sdpToConfig f = some cfg →
        queryInfo (ds1 ++ d :: ds2) f = some (d.queryAudioEncoder cfg)) ∧
    (∀ (d1 d2 : CodecClass) (f : SdpAudioFormat) (c1 : d1.Config)
        (c2 : d2.Config),
        d1.sdpToConfig f = some c1 → d2.sdpToConfig f = some c2 →
        queryInfo [d1, d2] f = some (d1.queryAudioEncoder c1) ∧
        queryInfo [d2, d1] f = some (d2.queryAudioEncoder c2)) := by
  constructor
  · exact fun ds1 d ds2 f cfg h1 h2 => queryInfo_first ds1 d ds2 f cfg h1 h2
  · intro d1 d2 f c1 c2 h1 h2
    exact ⟨queryInfo_cons_accept d1 [d2] f c1 h1,
      queryInfo_cons_accept d2 [d1] f c2 h2⟩

/-- Witness for C1 at concrete inputs: demoA and demoB both accept
demoFormat but report different capabilities, and swapping their order
swaps which answer queryInfo returns. -/
theorem first_match_wins_witness :
    demoA.sdpToConfig demoFormat = some 8000 ∧
    demoB.sdpToConfig demoFormat = some 16000 ∧
    (queryInfo [demoA, demoB] demoFormat = some ⟨8000, 1, 64000⟩ ∧
     queryInfo [demoB, demoA] demoFormat = some ⟨16000, 2, 32000⟩) :=
  ⟨rfl, rfl,
    first_match_wins.2 demoA demoB demoFormat (8000 : Nat) (16000 : Nat) rfl rfl⟩

/-- C3: queryInfo on a descriptor list returns no value exactly when
every descriptor in the list rejects the format (its parse-format
returns no value). -/
theorem rejection_total :
    ∀ (ds : List CodecClass) (f : SdpAudioFormat),
      queryInfo ds f = none ↔ ∀ d ∈ ds, d.sdpToConfig f = none :=
  fun ds f => queryInfo_none_iff ds f

/-- Witness for C3 at concrete inputs: both directions of the
equivalence, on a list where every descriptor rejects otherFormat. -/
theorem rejection_total_witness :
    queryInfo [demoA, demoReject] otherFormat = none ∧
    (∀ d ∈ ([demoA, demoReject] : List CodecClass),
      d.sdpToConfig otherFormat = none) :=
  ⟨(rejection_total [demoA, demoReject] otherFormat).mpr
      (by
        intro d hd
        rcases List.mem_cons.mp hd with rfl | hd
        · rfl
        rcases List.mem_cons.mp hd with rfl | hd
        · rfl
        cases hd),
    (rejection_total [demoA, demoReject] otherFormat).mp rfl⟩

/-- C7: the NotAdvertised decorator forwards SdpToConfig,
QueryAudioEncoder and MakeAudioEncoder unchanged to the wrapped
descriptor, and its Config type is the wrapped descriptor's Config
type. -/
theorem notAdvertised_forwarding :
    ∀ T : CodecClass,
      (NotAdvertised T).Config = T.Config ∧
      (NotAdvertised T).sdpToConfig = T.sdpToConfig ∧
      (NotAdvertised T).queryAudioEncoder = T.queryAudioEncoder ∧
      (NotAdvertised T).makeAudioEncoder = T.makeAudioEncoder :=
  fun _ => ⟨rfl, rfl, rfl, rfl⟩

/-- C9: NotAdvertised's AppendSupportedEncoders leaves the passed spec
vector exactly as it was — it neither appends, removes, nor modifies
anything, so specs accumulated from earlier descriptors survive
unchanged (in particular it does not clear the vector). -/
theorem notAdvertised_append_frame :
    ∀ (T : CodecClass) (specs : List AudioCodecSpec),
      (NotAdvertised T).appendSupportedEncoders specs = specs :=
  fun _ _ => rfl

/-- C2: wrapping a descriptor D in NotAdvertised makes its own
contribution to the advertised specs empty — the factory's supported
formats with the decorated D present equal those of the same factory
without D — while create-encoder through the decorated D behaves
identically to the undecorated D on every format and payload type. -/
theorem notAdvertised_suppression :
    ∀ (ds1 : List CodecClass) (D : CodecClass) (ds2 : List CodecClass)
      (f : SdpAudioFormat) (p : Int),
      listSupportedSpecs (NotAdvertised D) = [] ∧
      supportedFormats (ds1 ++ NotAdvertised D :: ds2) =
        supportedFormats (ds1 ++ ds2) ∧
      createEncoder (ds1 ++ NotAdvertised D :: ds2) f p =
        createEncoder (ds1 ++ D :: ds2) f p := by
  intro ds1 D ds2 f p
  refine ⟨rfl, ?_, ?_⟩
  · rw [supportedFormats, supportedFormats, List.foldl_append,
      List.foldl_append, List.foldl_cons]
    rfl
  · induction ds1 with
    | nil =>
      rw [List.nil_append, List.nil_append]
      cases h : D.sdpToConfig f with
      | some cfg =>
        rw [createEncoder_cons_accept D ds2 f p cfg h,
          createEncoder_cons_accept (NotAdvertised D) ds2 f p cfg h]
        rfl
      | none =>
        rw [createEncoder_cons_reject D ds2 f p h,
          createEncoder_cons_reject (NotAdvertised D) ds2 f p h]
    | cons d ds ih =>
      rw [List.cons_append, List.cons_append]
      cases h : d.sdpToConfig f with
      | some cfg =>
        rw [createEncoder_cons_accept d (ds ++ NotAdvertised D :: ds2) f p cfg h,
          createEncoder_cons_accept d (ds ++ D :: ds2) f p cfg h]
      | none =>
        rw [createEncoder_cons_reject d (ds ++ NotAdvertised D :: ds2) f p h,
          createEncoder_cons_reject d (ds ++ D :: ds2) f p h]
        exact ih

/-- C8: repeated factory calls are deterministic and stateless — a
second queryInfo call on the state left by a first returns the same
result, likewise for createEncoder, neither call changes the factory
state, and the codec the dispatch scan selects is the same on the state
before and after any call. -/
theorem factory_determinism :
    ∀ (s : FactoryState) (f : SdpAudioFormat) (p : Int),
      (queryInfoCall s f).1 = (queryInfoCall (queryInfoCall s f).2 f).1 ∧
      (queryInfoCall s f).2 = s ∧
      (createEncoderCall s f p).1 =
        (createEncoderCall (createEncoderCall s f p).2 f p).1 ∧
      (createEncoderCall s f p).2 = s ∧
      dispatchIndex (createEncoderCall s f p).2.descriptors f =
        dispatchIndex s.descriptors f ∧
      dispatchIndex (queryInfoCall s f).2.descriptors f =
        dispatchIndex s.descriptors f :=
  fun _ _ _ => ⟨rfl, rfl, rfl, rfl, rfl, rfl⟩

/-- C4: when every descriptor honours the append contract (its
AppendSupportedEncoders appends exactly its own specs to the
accumulated vector), the factory's supported formats are the
concatenation of each descriptor's own specs in list order, and the
total length is the sum of the individual lengths — order preserved, no
de-duplication, overlapping entries all appear. -/
theorem supported_formats_concat :
    ∀ ds : List CodecClass, (∀ d ∈ ds, Appends d) →
      supportedFormats ds = (ds.map listSupportedSpecs).flatten ∧
      (supportedFormats ds).length =
        ((ds.map listSupportedSpecs).map List.length).sum := by
  intro ds h
  have he := supportedFormats_eq_join ds h
  refine ⟨he, ?_⟩
  rw [he, List.length_flatten]

/-- Witness for C4 at concrete inputs: demoA and demoB advertise
overlapping "demo" templates; both entries appear, in list order, and
the lengths add. -/
theorem supported_formats_concat_witness :
    supportedFormats [demoA, demoB] =
      [⟨⟨"demo", 48000, 2, []⟩, ⟨48000, 2, 64000⟩⟩,
       ⟨⟨"demo", 16000, 1, []⟩, ⟨16000, 1, 32000⟩⟩] ∧
    (supportedFormats [demoA, demoB]).length = 2 := by
  have h := supported_formats_concat [demoA, demoB]
    (by
      intro d hd
      rcases List.mem_cons.mp hd with rfl | hd
      · exact fun acc => rfl
      · rcases List.mem_cons.mp hd with rfl | hd
        · exact fun acc => rfl
        · cases hd)
  exact ⟨by rw [h.1]; decide, by rw [h.2]; decide⟩

/-- C5: createEncoder selects the first descriptor (in list order)
whose parse-format accepts the format and returns exactly that
descriptor's make-encoder result on the parsed config and payload type;
it returns none when no descriptor accepts the format, and when the
selected descriptor's make-encoder itself fails it returns none while
queryInfo on the same format still succeeds. -/
theorem createEncoder_selection :
    (∀ (ds : List CodecClass) (f : SdpAudioFormat) (p : Int),
        (∀ d ∈ ds, d.sdpToConfig f = none) → createEncoder ds f p = none) ∧
    (∀ (ds1 : List CodecClass) (d : CodecClass) (ds2 : List CodecClass)
        (f : SdpAudioFormat) (p : Int) (cfg : d.Config),
        (∀ e ∈ ds1, e.sdpToConfig f = none) → d.sdpToConfig f = some cfg →
        createEncoder (ds1 ++ d :: ds2) f p = d.makeAudioEncoder cfg p ∧
        (d.makeAudioEncoder cfg p = none →
          createEncoder (ds1 ++ d :: ds2) f p = none ∧
          queryInfo (ds1 ++ d :: ds2) f = some (d.queryAudioEncoder cfg))) := by
  constructor
  · exact fun ds f p h => createEncoder_none_of_all_reject ds f p h
  · intro ds1 d ds2 f p cfg h1 h2
    have hc := createEncoder_first ds1 d ds2 f p cfg h1 h2
    refine ⟨hc, fun hfail => ⟨?_, queryInfo_first ds1 d ds2 f cfg h1 h2⟩⟩
    rw [hc, hfail]

/-- Witness for C5 at concrete inputs: demoFragile is selected for
demoFormat after demoReject, its make-encoder fails, createEncoder
returns none and queryInfo still succeeds. -/
theorem createEncoder_selection_witness :
    demoFragile.sdpToConfig demoFormat = some 8000 ∧
    demoFragile.makeAudioEncoder 8000 100 = none ∧
    demoReject.sdpToConfig demoFormat = none ∧
    createEncoder [demoReject] otherFormat 100 = none ∧
    (createEncoder [demoReject, demoFragile] demoFormat 100 = none ∧
     queryInfo [demoReject, demoFragile] demoFormat = some ⟨8000, 1, 1000⟩) := by
  have hrej : ∀ e ∈ ([demoReject] : List CodecClass),
      e.sdpToConfig demoFormat = none := by
    intro e he
    rcases List.mem_cons.mp he with rfl | he
    · rfl
    cases he
  have hrejO : ∀ e ∈ ([demoReject] : List CodecClass),
      e.sdpToConfig otherFormat = none := by
    intro e he
    rcases List.mem_cons.mp he with rfl | he
    · rfl
    cases he
  refine ⟨rfl, rfl, rfl, createEncoder_selection.1 [demoReject] otherFormat 100 hrejO, ?_⟩
  exact (createEncoder_selection.2 [demoReject] demoFragile [] demoFormat 100
    (8000 : Nat) hrej rfl).2 rfl

/-- A descriptor sitting behind a build-flag gate rejects a format
whenever the gate being open implies rejection: membership in the gated
singleton list forces the gate open. -/
theorem sdp_none_of_mem_gate (b : Bool) (x d : CodecClass) (f : SdpAudioFormat)
    (h : b = true → x.sdpToConfig f = none)
    (hd : d ∈ if b then [x] else []) : d.sdpToConfig f = none := by
  cases b
  · simp at hd
  · simp at hd
    subst hd
    exact h rfl

/-- Membership in the builtin assembly list: an element is one of the
flag-enabled optional codecs (with its flag set), the unconditional
G711, or the decorated L16. -/
theorem mem_builtinList (uo ui ug ul : Bool)
    (oD iD gD lD g711D l16D d : CodecClass) :
    d ∈ builtinList uo ui ug ul oD iD gD lD g711D l16D ↔
      (uo = true ∧ d = oD) ∨ (ui = true ∧ d = iD) ∨ (ug = true ∧ d = gD) ∨
      (ul = true ∧ d = lD) ∨ d = g711D ∨ d = NotAdvertised l16D := by
  cases uo <;> cases ui <;> cases ug <;> cases ul <;>
    simp [builtinList]

/-- The builtin assembly list split before its unconditional tail. -/
theorem builtinList_decomp (uo ui ug ul : Bool)
    (oD iD gD lD g711D l16D : CodecClass) :
    builtinList uo ui ug ul oD iD gD lD g711D l16D =
      ((if uo then [oD] else []) ++ (if ui then [iD] else []) ++
        (if ug then [gD] else []) ++ (if ul then [lD] else []) ++ [g711D]) ++
        [NotAdvertised l16D] := by
  simp [builtinList, List.append_assoc]

/-- C6: properties of the fixed builtin assembly.  (1) When every
flag-enabled optional codec rejects a format and so do G711 and L16
(i.e. the format is one only a disabled codec would accept), queryInfo
and createEncoder on the assembly both return none.  (2) The decorated
L16 entry contributes no specs — it is never advertised.  (3) The
decorated L16 remains constructible: when everything before it rejects
a format L16 accepts, createEncoder returns L16's own make-encoder
result.  (4) Under the append contract, every advertised spec comes
from some member of the assembly, so no disabled (absent) codec's specs
appear. -/
theorem builtin_assembly_properties :
    (∀ (uo ui ug ul : Bool) (oD iD gD lD g711D l16D : CodecClass)
        (f : SdpAudioFormat) (p : Int),
        (uo = true → oD.sdpToConfig f = none) →
        (ui = true → iD.sdpToConfig f = none) →
        (ug = true → gD.sdpToConfig f = none) →
        (ul = true → lD.sdpToConfig f = none) →
        g711D.sdpToConfig f = none → l16D.sdpToConfig f = none →
        queryInfo (builtinList uo ui ug ul oD iD gD lD g711D l16D) f = none ∧
        createEncoder (builtinList uo ui ug ul oD iD gD lD g711D l16D) f p = none) ∧
    (∀ l16D : CodecClass, listSupportedSpecs (NotAdvertised l16D) = []) ∧
    (∀ (uo ui ug ul : Bool) (oD iD gD lD g711D l16D : CodecClass)
        (f : SdpAudioFormat) (p : Int) (cfg : l16D.Config),
        (uo = true → oD.sdpToConfig f = none) →
        (ui = true → iD.sdpToConfig f = none) →
        (ug = true → gD.sdpToConfig f = none) →
        (ul = true → lD.sdpToConfig f = none) →
        g711D.sdpToConfig f = none → l16D.sdpToConfig f = some cfg →
        createEncoder (builtinList uo ui ug ul oD iD gD lD g711D l16D) f p =
          l16D.makeAudioEncoder cfg p) ∧
    (∀ (uo ui ug ul : Bool) (oD iD gD lD g711D l16D : CodecClass),
        (∀ d ∈ builtinList uo ui ug ul oD iD gD lD g711D l16D, Appends d) →
        ∀ s ∈ supportedFormats (builtinList uo ui ug ul oD iD gD lD g711D l16D),
          ∃ d, d ∈ builtinList uo ui ug ul oD iD gD lD g711D l16D ∧
            s ∈ listSupportedSpecs d) := by
  refine ⟨?_, fun _ => rfl, ?_, ?_⟩
  · intro uo ui ug ul oD iD gD lD g711D l16D f p ho hi hg hl h711 h16
    have hall : ∀ d ∈ builtinList uo ui ug ul oD iD gD lD g711D l16D,
        d.sdpToConfig f = none := by
      intro d hd
      rcases (mem_builtinList uo ui ug ul oD iD gD lD g711D l16D d).mp hd with
        ⟨hb, rfl⟩ | ⟨hb, rfl⟩ | ⟨hb, rfl⟩ | ⟨hb, rfl⟩ | rfl | rfl
      · exact ho hb
      · exact hi hb
      · exact hg hb
      · exact hl hb
      · exact h711
      · exact h16
    exact ⟨(queryInfo_none_iff _ f).mpr hall,
      createEncoder_none_of_all_reject _ f p hall⟩
  · intro uo ui ug ul oD iD gD lD g711D l16D f p cfg ho hi hg hl h711 h16
    have hpre : ∀ d ∈ (if uo then [oD] else []) ++ (if ui then [iD] else []) ++
        (if ug then [gD] else []) ++ (if ul then [lD] else []) ++ [g711D],
        d.sdpToConfig f = none := by
      intro d hd
      rcases List.mem_append.mp hd with hd | hd
      · rcases List.mem_append.mp hd with hd | hd
        · rcases List.mem_append.mp hd with hd | hd
          · rcases List.mem_append.mp hd with hd | hd
            · exact sdp_none_of_mem_gate uo oD d f ho hd
            · exact sdp_none_of_mem_gate ui iD d f hi hd
          · exact sdp_none_of_mem_gate ug gD d f hg hd
        · exact sdp_none_of_mem_gate ul lD d f hl hd
      · rcases List.mem_cons.mp hd with rfl | hd
        · exact h711
        cases hd
    rw [builtinList_decomp, createEncoder_append_reject _ _ f p hpre,
      createEncoder_cons_accept (NotAdvertised l16D) [] f p cfg h16]
    rfl
  · intro uo ui ug ul oD iD gD lD g711D l16D hApp s hs
    rw [supportedFormats_eq_join _ hApp] at hs
    rcases List.mem_flatten.mp hs with ⟨l, hl, hsl⟩
    rcases List.mem_map.mp hl with ⟨d, hd, rfl⟩
    exact ⟨d, hd, hsl⟩

/-- Witness for C6 at concrete inputs: with every flag off and a
disabled opus descriptor (demoA) that would accept demoFormat, the
assembly of rejecting descriptors neither answers queryInfo nor builds
an encoder for demoFormat; and with L16 set to demoA, createEncoder
still constructs through the decorated tail entry. -/
theorem builtin_assembly_properties_witness :
    demoA.sdpToConfig demoFormat = some 8000 ∧
    demoReject.sdpToConfig demoFormat = none ∧
    (queryInfo (builtinList false false false false demoA demoReject demoReject
        demoReject demoReject demoReject) demoFormat = none ∧
     createEncoder (builtinList false false false false demoA demoReject demoReject
        demoReject demoReject demoReject) demoFormat 100 = none) ∧
    createEncoder (builtinList false false false false demoReject demoReject
        demoReject demoReject demoReject demoA) demoFormat 100 =
      demoA.makeAudioEncoder 8000 100 := by
  refine ⟨rfl, rfl,
    builtin_assembly_properties.1 false false false false demoA demoReject
      demoReject demoReject demoReject demoReject demoFormat 100
      (fun h => nomatch h) (fun h => nomatch h) (fun h => nomatch h)
      (fun h => nomatch h) rfl rfl,
    builtin_assembly_properties.2.2.1 false false false false demoReject
      demoReject demoReject demoReject demoReject demoA demoFormat 100
      (8000 : Nat)
      (fun h => nomatch h) (fun h => nomatch h) (fun h => nomatch h)
      (fun h => nomatch h) rfl rfl⟩

/-- C10: for every combination of the four build flags, the builtin
assembly is the flag-enabled optional codecs (opus, isac, g722, ilbc,
in that order) followed by G711 and the decorated L16 as the last two
entries; G711 and the decorated L16 are members under every flag
combination, and the decorated L16 is always the final element. -/
theorem builtin_tail_structure :
    ∀ (uo ui ug ul : Bool) (oD iD gD lD g711D l16D : CodecClass),
      ∃ pre : List CodecClass,
        builtinList uo ui ug ul oD iD gD lD g711D l16D =
          pre ++ [g711D, NotAdvertised l16D] ∧
        pre = (if uo then [oD] else []) ++ (if ui then [iD] else []) ++
          (if ug then [gD] else []) ++ (if ul then [lD] else []) ∧
        g711D ∈ builtinList uo ui ug ul oD iD gD lD g711D l16D ∧
        NotAdvertised l16D ∈ builtinList uo ui ug ul oD iD gD lD g711D l16D ∧
        (builtinList uo ui ug ul oD iD gD lD g711D l16D).getLast? =
          some (NotAdvertised l16D) := by
  intro uo ui ug ul oD iD gD lD g711D l16D
  refine ⟨_, ?_, rfl, ?_, ?_, ?_⟩
  · simp [builtinList, List.append_assoc]
  · simp [builtinList]
  · simp [builtinList]
  · cases uo <;> cases ui <;> cases ug <;> cases ul <;> rfl

end WebRTC
